import Mathlib

/-
  Verification of the pybind11 lambda-generation module (clif/pybind11/lambdas.py).

  The Python module decides, for a function descriptor, whether a C++ lambda
  wrapper must be generated (`needs_lambda`) and, when one is needed, renders
  the wrapper text line by line (`generate_lambda` and its helpers).

  Shallow embedding conventions:
  * Protobuf descriptor messages become plain structures with the proto field
    names; unset proto fields carry the proto default (empty string / false).
  * Python generator functions yielding lines become functions returning
    `List String`, in yield order.
  * Python code that can raise (the `t[-1]` list indexing in
    `_extract_bare_type`, reachable on input "const") is embedded with
    `Option`: `none` models an uncaught `IndexError` propagating out.
  * `utils.I`, `utils.is_usable_cpp_exact_type`, `function_lib.generate_def`
    and `function_lib.generate_function_suffixes` are imported from modules
    not part of the analyzed source; they are modelled per the spec, see the
    individual doc comments.
-/

set_option maxHeartbeats 1000000

namespace ClifLambdas

/-- `Name` proto message: the Python-facing (`native`) and C++ (`cpp_name`)
spellings of an identifier.  Proto string fields default to `""`. -/
structure NameInfo where
  native : String := ""
  cpp_name : String := ""

/-- `Type` proto message fields used by lambdas.py: the Python-level type
(`lang_type`, e.g. "bytes"), the rendered C++ type (`cpp_type`), and the two
conversion capability flags consulted by `_func_needs_implicit_conversion`. -/
structure TypeInfo where
  lang_type : String := ""
  cpp_type : String := ""
  cpp_toptr_conversion : Bool := false
  cpp_touniqptr_conversion : Bool := false

/-- `ParamDecl` proto message: used both for entries of `FuncDecl.params` and
of `FuncDecl.returns`. -/
structure ParamDecl where
  name : NameInfo := {}
  type : TypeInfo := {}
  cpp_exact_type : String := ""

/-- `ClassDecl` proto message (only its name is consulted here). -/
structure ClassDecl where
  name : NameInfo := {}

/-- `FuncDecl` proto message fields consulted by lambdas.py. -/
structure FuncDecl where
  name : NameInfo := {}
  params : List ParamDecl := []
  returns : List ParamDecl := []
  classmethod : Bool := false
  cpp_void_return : Bool := false
  postproc : String := ""

/-- Modelled from the spec: `utils.I` (outside the analyzed source) is the
indentation prefix prepended to every emitted wrapper-body line ("indented"
in the spec's wording). -/
def I : String := "  "

/-- Embedding of Python `cs.split(' ')` (split on every single space
character, keeping empty tokens; never returns an empty list). -/
def splitSp : List Char → List (List Char)
  | [] => [[]]
  | c :: rest =>
    if c = ' ' then [] :: splitSp rest
    else
      match splitSp rest with
      | [] => [[c]]
      | t :: ts => (c :: t) :: ts

/-- The token list `t` of `_extract_bare_type` after the leading-`const`
drop: `t = cpp_name.split(' ')`, then `t = t[1:]` when `t[0] == 'const'`. -/
def bare_tokens (cpp_name : String) : List String :=
  let t0 : List String := (splitSp cpp_name.data).map String.mk
  if t0.head? = some "const" then t0.tail else t0

/-- `_extract_bare_type(cpp_name)`:
tokenize on single spaces, drop a leading `const` token, drop a trailing
`&` or `*` token, rejoin with single spaces.  The Python code indexes
`t[-1]` unconditionally after possibly dropping the leading `const`, so it
raises `IndexError` when the remaining token list is empty; `none` models
that exception. -/
def extract_bare_type (cpp_name : String) : Option String :=
  let t : List String := bare_tokens cpp_name
  match t.getLast? with
  | none => none
  | some last =>
    some (String.intercalate " " (if last = "&" ∨ last = "*" then t.dropLast else t))

/-- `_func_needs_implicit_conversion(func_decl)`.  The usability predicate
`utils.is_usable_cpp_exact_type` lives outside the analyzed source and is
taken as a parameter `usable`; per the spec it marks "textually well-formed
(non-degenerate)" exact type strings.  `none` models an `IndexError`
escaping from `_extract_bare_type`. -/
def func_needs_implicit_conversion (usable : String → Bool)
    (f : FuncDecl) : Option Bool :=
  match f.params with
  | [param] =>
    if usable param.cpp_exact_type then
      match extract_bare_type param.cpp_exact_type,
            extract_bare_type param.type.cpp_type with
      | some be, some bd =>
        some (decide (be ≠ bd) && param.type.cpp_toptr_conversion
              && param.type.cpp_touniqptr_conversion)
      | _, _ => none
    else
      some false
  | _ => some false

/-- `_func_has_pointer_params(func_decl)`. -/
def func_has_pointer_params (f : FuncDecl) : Bool :=
  f.returns.length ≥ 2 || (f.returns.length = 1 && f.cpp_void_return)

/-- `_has_bytes_return(func_decl)`. -/
def has_bytes_return (f : FuncDecl) : Bool :=
  f.returns.any (fun r => r.type.lang_type = "bytes")

/-- `needs_lambda(func_decl)`.  Python's `or` short-circuits, so the
possibly-raising implicit-conversion check only runs when the `->self`
test is false. -/
def needs_lambda (usable : String → Bool) (f : FuncDecl) : Option Bool :=
  if f.postproc = "->self" then some true
  else
    match func_needs_implicit_conversion usable f with
    | none => none
    | some ic => some (ic || func_has_pointer_params f || has_bytes_return f)

/-- `_generate_lambda_params_with_types(func_decl, class_decl)`. -/
def generate_lambda_params_with_types (f : FuncDecl)
    (class_decl : Option ClassDecl) : String :=
  let params_list : List String :=
    f.params.map (fun p => p.type.cpp_type ++ " " ++ p.name.cpp_name)
  let params_list : List String :=
    match class_decl with
    | some cd =>
      if !f.classmethod then (cd.name.cpp_name ++ " &self") :: params_list
      else params_list
    | none => params_list
  String.intercalate ", " params_list

/-- `_generate_function_call(func_decl, class_decl)`. -/
def generate_function_call (f : FuncDecl)
    (class_decl : Option ClassDecl) : String :=
  if f.classmethod || class_decl.isNone then f.name.cpp_name
  else "self." ++ f.name.cpp_name

/-- `_generate_function_call_params(func_decl)`: the parameter names in
order followed by `&ret<i>` for each pointer out-parameter, starting at
index 1 when the non-void call captures return 0 by assignment. -/
def generate_function_call_params (f : FuncDecl) : String :=
  let params : String :=
    String.intercalate ", " (f.params.map (fun p => p.name.cpp_name))
  let stard_idx : Nat :=
    if !f.cpp_void_return && f.returns.length ≠ 0 then 1 else 0
  let pointer_params_str : String :=
    String.intercalate ", "
      ((List.range' stard_idx (f.returns.length - stard_idx)).map
        (fun i => "&ret" ++ toString i))
  if params ≠ "" && pointer_params_str ≠ "" then
    params ++ ", " ++ pointer_params_str
  else if pointer_params_str ≠ "" then pointer_params_str
  else params

/-- The rendering of return `i` inside the return expression (the loop body
of `_generate_function_call_returns`): byte-tagged returns are wrapped in
`py::bytes(...)`. -/
def return_element (i : Nat) (r : ParamDecl) : String :=
  if r.type.lang_type = "bytes" then "py::bytes(ret" ++ toString i ++ ")"
  else "ret" ++ toString i

/-- The `all_returns_list` local of `_generate_function_call_returns`: the
rendered return elements, in descriptor order. -/
def all_returns_list (f : FuncDecl) : List String :=
  f.returns.enum.map (fun ir => return_element ir.1 ir.2)

/-- `_generate_function_call_returns(func_decl)`. -/
def generate_function_call_returns (f : FuncDecl) : String :=
  String.intercalate ", " (all_returns_list f)

/-- `_generate_lambda_body(func_decl, class_decl)`: the yielded lines, in
order — return-storage declarations, the call statement, the return
statement. -/
def generate_lambda_body (f : FuncDecl)
    (class_decl : Option ClassDecl) : List String :=
  let function_call := generate_function_call f class_decl
  let function_call_params := generate_function_call_params f
  let function_call_returns := generate_function_call_returns f
  (f.returns.enum.map
    (fun ir => I ++ ir.2.type.cpp_type ++ " ret" ++ toString ir.1 ++ "\x7b\x7d;"))
  ++ [if !f.cpp_void_return && f.returns.length ≠ 0 then
        I ++ "ret0 = " ++ function_call ++ "(" ++ function_call_params ++ ");"
      else
        I ++ function_call ++ "(" ++ function_call_params ++ ");"]
  ++ [if f.postproc = "->self" then
        I ++ "return self;"
      else if f.returns.length > 1 then
        I ++ "return std::make_tuple(" ++ function_call_returns ++ ");"
      else
        I ++ "return " ++ function_call_returns ++ ";"]

/-- Embedding of Python `s.rstrip('#')`: drop every trailing `#`. -/
def rstripHash (s : String) : String :=
  String.mk (s.data.reverse.dropWhile (fun c => c = '#')).reverse

/-- `generate_lambda(module_name, func_decl, class_decl)`.  The registration
keyword text `function_lib.generate_def(func_decl)` and the trailing suffix
`function_lib.generate_function_suffixes(func_decl)` come from a module
outside the analyzed source; the spec treats them as opaque caller-supplied
registration text, so they are taken here as parameters `gdef` and `gsuf`. -/
def generate_lambda (gdef gsuf : String) (module_name : String)
    (f : FuncDecl) (class_decl : Option ClassDecl) : List String :=
  let params_with_type := generate_lambda_params_with_types f class_decl
  let func_name := rstripHash f.name.native
  (module_name ++ "." ++ gdef ++ "(\"" ++ func_name ++ "\", []("
    ++ params_with_type ++ ") \x7b")
  :: generate_lambda_body f class_decl
  ++ ["\x7d, " ++ gsuf]

/-- Spec-side definition of "bare type" extraction, following the spec's
words: tokenize the type string (on the space character), drop a leading
`const` token, drop a trailing single-character reference/pointer marker
token, rejoin the remaining tokens with single spaces.  Unlike the code,
this description is total. -/
def bareType_spec (s : String) : String :=
  let t : List String := bare_tokens s
  let t2 : List String :=
    if t.getLast? = some "&" ∨ t.getLast? = some "*" then t.dropLast else t
  String.intercalate " " t2

/-- Spec-side condition for `needs_lambda` (spec §4.1, claim C1): the
disjunction of the four wrapper-forcing conditions, with the usability
predicate for exact type strings abstracted as `usable`. -/
def needsWrapperSpec (usable : String → Bool) (f : FuncDecl) : Prop :=
  f.postproc = "->self"
  ∨ (∃ p, f.params = [p] ∧ usable p.cpp_exact_type = true
      ∧ extract_bare_type p.cpp_exact_type ≠ extract_bare_type p.type.cpp_type
      ∧ p.type.cpp_toptr_conversion = true
      ∧ p.type.cpp_touniqptr_conversion = true)
  ∨ (2 ≤ f.returns.length ∨ (f.returns.length = 1 ∧ f.cpp_void_return = true))
  ∨ (∃ r ∈ f.returns, r.type.lang_type = "bytes")

/- ### Helper lemmas -/

lemma splitSp_ne_nil (cs : List Char) : splitSp cs ≠ [] := by
  cases cs with
  | nil => simp [splitSp]
  | cons c rest =>
    unfold splitSp
    by_cases hc : c = ' '
    · simp [hc]
    · simp only [if_neg hc]
      cases splitSp rest <;> simp

lemma splitSp_singleton : ∀ (cs t : List Char), splitSp cs = [t] → cs = t := by
  intro cs
  induction cs with
  | nil =>
    intro t h
    simp [splitSp] at h
    simp [h]
  | cons c rest ih =>
    intro t h
    unfold splitSp at h
    by_cases hc : c = ' '
    · rw [if_pos hc] at h
      cases h' : splitSp rest with
      | nil => exact absurd h' (splitSp_ne_nil rest)
      | cons a as => rw [h'] at h; simp at h
    · rw [if_neg hc] at h
      cases h' : splitSp rest with
      | nil => exact absurd h' (splitSp_ne_nil rest)
      | cons a as =>
        rw [h'] at h
        simp only [List.cons.injEq] at h
        obtain ⟨h1, h2⟩ := h
        have hrest : rest = a := ih a (by rw [h', h2])
        rw [hrest, ← h1]

lemma bare_tokens_ne_nil (s : String) (hs : s ≠ "const") :
    bare_tokens s ≠ [] := by
  unfold bare_tokens
  by_cases hh : ((splitSp s.data).map String.mk).head? = some "const"
  · rw [if_pos hh]
    intro htail
    cases h0 : (splitSp s.data).map String.mk with
    | nil =>
      exact absurd (List.map_eq_nil_iff.mp h0) (splitSp_ne_nil s.data)
    | cons x xs =>
      rw [h0] at hh htail
      simp only [List.head?_cons, Option.some.injEq] at hh
      simp only [List.tail_cons] at htail
      rw [htail, hh] at h0
      cases h1 : splitSp s.data with
      | nil => exact absurd h1 (splitSp_ne_nil s.data)
      | cons l ls =>
        rw [h1] at h0
        simp only [List.map_cons, List.cons.injEq, List.map_eq_nil_iff] at h0
        obtain ⟨hl, hls⟩ := h0
        have hdata : s.data = l := splitSp_singleton s.data l (by rw [h1, hls])
        apply hs
        apply String.ext
        rw [hdata, ← hl]
  · rw [if_neg hh]
    intro h0
    exact absurd (List.map_eq_nil_iff.mp h0) (splitSp_ne_nil s.data)

lemma extract_bare_type_eq_spec (s : String) (hs : s ≠ "const") :
    extract_bare_type s = some (bareType_spec s) := by
  have hne := bare_tokens_ne_nil s hs
  obtain ⟨last, hl⟩ := Option.isSome_iff_exists.mp (List.getLast?_isSome.mpr hne)
  unfold extract_bare_type bareType_spec
  simp only [hl, Option.some.injEq]

/- ### Claims -/

/-- C3 (amended): bare-type extraction terminates normally and returns a
result on every input string except exactly `"const"`; on `"const"` the
Python code raises `IndexError` (modelled by `none`). -/
theorem extract_bare_type_total_except_const (s : String) :
    (extract_bare_type s).isSome = true ↔ s ≠ "const" := by
  constructor
  · intro h hs
    rw [hs] at h
    simp [extract_bare_type, bare_tokens, splitSp] at h
  · intro hs
    rw [extract_bare_type_eq_spec s hs]
    rfl

/-- C3 counterexample: on the input string `"const"`, bare-type extraction
does not degrade to a best-effort result — the embedded `t[-1]` indexing
fails (Python `IndexError`, modelled by `none`). -/
theorem extract_bare_type_const_fails : extract_bare_type "const" = none := by
  decide

/-- C4: bare-type extraction agrees with the spec's tokenize / drop-const /
drop-trailing-marker / rejoin description (on every string where it
returns, i.e. everything but `"const"`), and in particular
`bareType("const Foo &") = "Foo"`, `bareType("Foo *") = "Foo"`,
`bareType("Foo") = "Foo"`. -/
theorem extract_bare_type_matches_spec :
    (∀ s : String, s ≠ "const" → extract_bare_type s = some (bareType_spec s))
    ∧ extract_bare_type "const Foo &" = some "Foo"
    ∧ extract_bare_type "Foo *" = some "Foo"
    ∧ extract_bare_type "Foo" = some "Foo" :=
  ⟨extract_bare_type_eq_spec, by decide, by decide, by decide⟩

/-- C4 witness: the general part of `extract_bare_type_matches_spec`
evaluated at the concrete type string `"unsigned long *"`. -/
theorem extract_bare_type_matches_spec_witness :
    extract_bare_type "unsigned long *" = some (bareType_spec "unsigned long *") :=
  extract_bare_type_matches_spec.1 "unsigned long *" (by decide)

/- ### Shape of the generated lambda body -/

lemma body_length (f : FuncDecl) (c : Option ClassDecl) :
    (generate_lambda_body f c).length = f.returns.length + 2 := by
  simp [generate_lambda_body, List.enum_length]

lemma body_getLast (f : FuncDecl) (c : Option ClassDecl) :
    (generate_lambda_body f c).getLast? =
      some (if f.postproc = "->self" then I ++ "return self;"
        else if f.returns.length > 1 then
          I ++ "return std::make_tuple(" ++ generate_function_call_returns f ++ ");"
        else I ++ "return " ++ generate_function_call_returns f ++ ";") := by
  unfold generate_lambda_body
  rw [List.append_assoc, List.getLast?_append_of_ne_nil _ (by simp)]
  rfl

lemma body_decl_line (f : FuncDecl) (c : Option ClassDecl) (i : Nat)
    (r : ParamDecl) (h : f.returns[i]? = some r) :
    (generate_lambda_body f c)[i]? =
      some (I ++ r.type.cpp_type ++ " ret" ++ toString i ++ "\x7b\x7d;") := by
  have hi : i < f.returns.length := (List.getElem?_eq_some.mp h).1
  unfold generate_lambda_body
  rw [List.append_assoc, List.getElem?_append]
  rw [if_pos (by simpa [List.enum_length] using hi)]
  simp [List.getElem?_map, List.getElem?_enum, h]

lemma body_call_line (f : FuncDecl) (c : Option ClassDecl) :
    (generate_lambda_body f c)[f.returns.length]? =
      some (if !f.cpp_void_return && f.returns.length ≠ 0 then
          I ++ "ret0 = " ++ generate_function_call f c ++ "("
            ++ generate_function_call_params f ++ ");"
        else
          I ++ generate_function_call f c ++ "("
            ++ generate_function_call_params f ++ ");") := by
  unfold generate_lambda_body
  rw [List.append_assoc, List.getElem?_append]
  rw [if_neg (by simp [List.enum_length])]
  simp [List.enum_length]

lemma all_returns_list_length (f : FuncDecl) :
    (all_returns_list f).length = f.returns.length := by
  simp [all_returns_list, List.enum_length]

lemma all_returns_list_elem (f : FuncDecl) (i : Nat) (r : ParamDecl)
    (h : f.returns[i]? = some r) :
    (all_returns_list f)[i]? =
      some (if r.type.lang_type = "bytes"
        then "py::bytes(ret" ++ toString i ++ ")"
        else "ret" ++ toString i) := by
  simp [all_returns_list, List.getElem?_map, List.getElem?_enum, h,
    return_element]

/-- C2: for every descriptor whose postprocessing marker is `->self`, the
return line (the last line yielded by `_generate_lambda_body`) is exactly
the indented `return self;`, whatever `returns` holds. -/
theorem lambda_body_return_self (f : FuncDecl) (c : Option ClassDecl)
    (h : f.postproc = "->self") :
    (generate_lambda_body f c).getLast? = some (I ++ "return self;") := by
  rw [body_getLast, if_pos h]

/-- C2 witness: `lambda_body_return_self` at a descriptor with two returns
(the return line still ignores them). -/
theorem lambda_body_return_self_witness :
    (generate_lambda_body { postproc := "->self", returns := [{}, {}] } none).getLast?
      = some (I ++ "return self;") :=
  lambda_body_return_self { postproc := "->self", returns := [{}, {}] } none rfl

/-- C10: for a descriptor with zero returns and postprocessing marker other
than `->self`, the body has no declaration lines, the call statement is not
an assignment (whatever `cpp_void_return` is), and the return line is
literally the indented `return ;`. -/
theorem lambda_body_zero_returns (f : FuncDecl) (c : Option ClassDecl)
    (h0 : f.returns = []) (h1 : f.postproc ≠ "->self") :
    generate_lambda_body f c =
      [I ++ generate_function_call f c ++ "("
         ++ generate_function_call_params f ++ ");",
       I ++ "return ;"] := by
  unfold generate_lambda_body
  rw [h0]
  simp only [List.enum_nil, List.map_nil, List.length_nil, List.nil_append]
  rw [if_neg (by simp), if_neg h1, if_neg (by simp)]
  simp only [generate_function_call_returns, all_returns_list, h0,
    List.enum_nil, List.map_nil, List.cons_append, List.nil_append]
  rw [show I ++ "return " ++ ", ".intercalate ([] : List String) ++ ";"
      = I ++ "return ;" from by decide]

/-- C10 witness: `lambda_body_zero_returns` at a zero-return descriptor with
a non-void underlying call. -/
theorem lambda_body_zero_returns_witness :
    generate_lambda_body { name := { cpp_name := "f" } } none
      = ["  f();", "  return ;"] := by
  have h := lambda_body_zero_returns { name := { cpp_name := "f" } } none rfl
    (by decide)
  rw [h]
  decide

/-- C5 counterexample: a descriptor with `returns.length = 3` whose
postprocessing marker is `->self`.  The claim predicts a
`return std::make_tuple(ret0, ret1, ret2);` return line (all three returns
are untagged), but the emitted return line is `return self;`. -/
theorem multi_return_self_override :
    (generate_lambda_body { returns := [{}, {}, {}], postproc := "->self" } none).getLast?
        = some (I ++ "return self;")
    ∧ I ++ "return self;" ≠ I ++ "return std::make_tuple(ret0, ret1, ret2);" := by
  constructor
  · decide
  · decide

/-- C5 (amended): for a descriptor with `N = returns.length ≥ 2` and a
postprocessing marker other than `->self`, the body consists of exactly `N`
declaration lines `<type> ret<i>{};` (in descriptor order) followed by the
call line and the return line, and the return line is
`return std::make_tuple(...)` over exactly `N` comma-separated elements,
element `i` being `ret<i>` or its `py::bytes` wrapping. -/
theorem multi_return_body_shape (f : FuncDecl) (c : Option ClassDecl)
    (hp : f.postproc ≠ "->self") (hn : 2 ≤ f.returns.length) :
    (generate_lambda_body f c).length = f.returns.length + 2
    ∧ (∀ (i : Nat) (r : ParamDecl), f.returns[i]? = some r →
        (generate_lambda_body f c)[i]? =
          some (I ++ r.type.cpp_type ++ " ret" ++ toString i ++ "\x7b\x7d;"))
    ∧ (all_returns_list f).length = f.returns.length
    ∧ (∀ (i : Nat) (r : ParamDecl), f.returns[i]? = some r →
        (all_returns_list f)[i]? =
          some (if r.type.lang_type = "bytes"
            then "py::bytes(ret" ++ toString i ++ ")"
            else "ret" ++ toString i))
    ∧ (generate_lambda_body f c).getLast? =
        some (I ++ "return std::make_tuple("
          ++ String.intercalate ", " (all_returns_list f) ++ ");") := by
  refine ⟨body_length f c, fun i r h => body_decl_line f c i r h,
    all_returns_list_length f, fun i r h => all_returns_list_elem f i r h, ?_⟩
  rw [body_getLast, if_neg hp, if_pos (by omega : f.returns.length > 1)]
  rfl

/-- C5 witness: `multi_return_body_shape` at a two-return descriptor (one
plain, one byte-tagged): its return line aggregates both elements. -/
theorem multi_return_body_shape_witness :
    (generate_lambda_body
        { returns := [{}, { type := { lang_type := "bytes" } }] } none).getLast?
      = some "  return std::make_tuple(ret0, py::bytes(ret1));" := by
  have h := (multi_return_body_shape
    { returns := [{}, { type := { lang_type := "bytes" } }] } none
    (by decide) (by decide)).2.2.2.2
  rw [h]
  decide

/-- C7: for every descriptor whose postprocessing marker is not `->self`,
the rendered return-element list has one entry per return, entry `i` being
`py::bytes(ret<i>)` exactly when return `i` is tagged `bytes` and the bare
`ret<i>` otherwise; the return line is built from exactly this element
list, both in the multi-return tuple case and in the sole-return case. -/
theorem bytes_return_wrapped (f : FuncDecl) (c : Option ClassDecl)
    (hp : f.postproc ≠ "->self") :
    (all_returns_list f).length = f.returns.length
    ∧ (∀ (i : Nat) (r : ParamDecl), f.returns[i]? = some r →
        (all_returns_list f)[i]? =
          some (if r.type.lang_type = "bytes"
            then "py::bytes(ret" ++ toString i ++ ")"
            else "ret" ++ toString i))
    ∧ (generate_lambda_body f c).getLast? =
        some (I ++ (if f.returns.length > 1
          then "return std::make_tuple("
            ++ String.intercalate ", " (all_returns_list f) ++ ");"
          else "return "
            ++ String.intercalate ", " (all_returns_list f) ++ ";")) := by
  refine ⟨all_returns_list_length f,
    fun i r h => all_returns_list_elem f i r h, ?_⟩
  rw [body_getLast, if_neg hp]
  by_cases hl : f.returns.length > 1
  · rw [if_pos hl, if_pos hl]
    simp [generate_function_call_returns, String.append_assoc]
  · rw [if_neg hl, if_neg hl]
    simp [generate_function_call_returns, String.append_assoc]

/-- C7 witness: `bytes_return_wrapped` at a descriptor whose sole return is
byte-tagged: the return line wraps it. -/
theorem bytes_return_wrapped_witness :
    (generate_lambda_body { returns := [{ type := { lang_type := "bytes" } }] }
        none).getLast?
      = some "  return py::bytes(ret0);" := by
  have h := (bytes_return_wrapped
    { returns := [{ type := { lang_type := "bytes" } }] } none (by decide)).2.2
  rw [h]
  decide

/-- C6: the out-parameter plan.  When the underlying call is void and there
is exactly one return, the argument list is the parameter names followed by
exactly one appended `&ret0` (start index 0) and the call statement carries
no `ret0 = ` assignment; when the call is non-void with at least one
return, the pointer arguments start at index 1 and the call statement
assigns to `ret0`. -/
theorem call_params_out_pointer (f : FuncDecl) (c : Option ClassDecl) :
    (f.cpp_void_return = true → f.returns.length = 1 →
      generate_function_call_params f =
        (if String.intercalate ", " (f.params.map (fun p => p.name.cpp_name)) = ""
         then "&ret0"
         else String.intercalate ", " (f.params.map (fun p => p.name.cpp_name))
           ++ ", &ret0")
      ∧ (generate_lambda_body f c)[f.returns.length]? =
          some (I ++ generate_function_call f c ++ "("
            ++ generate_function_call_params f ++ ");"))
    ∧ (f.cpp_void_return = false → 1 ≤ f.returns.length →
      generate_function_call_params f =
        (let ps := String.intercalate ", " (f.params.map (fun p => p.name.cpp_name))
         let ptr := String.intercalate ", "
           ((List.range' 1 (f.returns.length - 1)).map
             (fun i => "&ret" ++ toString i))
         if ps ≠ "" && ptr ≠ "" then ps ++ ", " ++ ptr
         else if ptr ≠ "" then ptr
         else ps)
      ∧ (generate_lambda_body f c)[f.returns.length]? =
          some (I ++ "ret0 = " ++ generate_function_call f c ++ "("
            ++ generate_function_call_params f ++ ");")) := by
  constructor
  · intro hv hl
    constructor
    · unfold generate_function_call_params
      rw [hv, hl]
      simp only [Bool.not_true, Bool.false_and, if_neg (by simp : ¬(false = true))]
      rw [show List.range' 0 (1 - 0) = [0] from rfl]
      rw [show String.intercalate ", " (List.map (fun i => "&ret" ++ toString i) [0])
          = "&ret0" from rfl]
      by_cases hps :
          String.intercalate ", " (f.params.map (fun p => p.name.cpp_name)) = ""
      · rw [if_pos hps, hps]
        decide
      · rw [if_neg hps, if_pos (by simp [hps])]
        rw [String.append_assoc]
        rfl
    · rw [body_call_line, if_neg (by simp [hv])]
  · intro hv hl
    have hne : f.returns.length ≠ 0 := by omega
    constructor
    · unfold generate_function_call_params
      rw [hv]
      simp [hne]
    · rw [body_call_line, if_pos (by simp [hv, hne])]

/-- C6 witness: `call_params_out_pointer` applied to a void call with one
return (a single `&ret0` argument, no assignment prefix is implied by the
first conjunct) and to a non-void call with two returns (pointer arguments
start at `&ret1`). -/
theorem call_params_out_pointer_witness :
    generate_function_call_params { cpp_void_return := true, returns := [{}] }
        = "&ret0"
    ∧ generate_function_call_params { returns := [{}, {}] } = "&ret1" := by
  constructor
  · exact ((call_params_out_pointer { cpp_void_return := true, returns := [{}] }
      none).1 rfl rfl).1.trans (by decide)
  · exact ((call_params_out_pointer { returns := [{}, {}] }
      none).2 rfl (by decide)).1.trans (by decide)

/-- C8 counterexample: with a class descriptor named `Foo` present and a
non-class-static function, the receiver parameter is rendered `Foo &self`
(space before the `&`), not `Foo& self` as the claim spells it. -/
theorem receiver_param_spacing :
    generate_lambda_params_with_types {} (some { name := { cpp_name := "Foo" } })
        = "Foo &self"
    ∧ "Foo &self" ≠ "Foo& self" := by
  constructor
  · decide
  · decide

/-- C8 (amended): the wrapper parameter list comma-joins
`<declaredType> <callName>` over the parameters in order, and exactly when
a class descriptor is present and the function is not class-static, a
synthetic receiver parameter `<receiverType> &self` is prepended. -/
theorem params_with_types_receiver (f : FuncDecl) (c : Option ClassDecl) :
    ((c = none ∨ f.classmethod = true) →
      generate_lambda_params_with_types f c =
        String.intercalate ", "
          (f.params.map (fun p => p.type.cpp_type ++ " " ++ p.name.cpp_name)))
    ∧ (∀ cd : ClassDecl, c = some cd → f.classmethod = false →
      generate_lambda_params_with_types f c =
        String.intercalate ", "
          ((cd.name.cpp_name ++ " &self")
            :: f.params.map (fun p => p.type.cpp_type ++ " " ++ p.name.cpp_name))) := by
  constructor
  · rintro (rfl | hm)
    · rfl
    · unfold generate_lambda_params_with_types
      cases c with
      | none => rfl
      | some cd => rw [hm]; rfl
  · rintro cd rfl hm
    unfold generate_lambda_params_with_types
    rw [hm]
    rfl

/-- C8 witness: `params_with_types_receiver` at a one-parameter method of
class `Foo`. -/
theorem params_with_types_receiver_witness :
    generate_lambda_params_with_types
        { params := [{ name := { cpp_name := "x" }, type := { cpp_type := "int" } }] }
        (some { name := { cpp_name := "Foo" } })
      = "Foo &self, int x" := by
  have h := (params_with_types_receiver
    { params := [{ name := { cpp_name := "x" }, type := { cpp_type := "int" } }] }
    (some { name := { cpp_name := "Foo" } })).2
    { name := { cpp_name := "Foo" } } rfl rfl
  rw [h]
  decide

/- ### rstrip('#') -/

lemma dropWhile_replicate_append {α : Type} (p : α → Bool) (a : α)
    (hp : p a = true) (n : Nat) (xs : List α) :
    List.dropWhile p (List.replicate n a ++ xs) = List.dropWhile p xs := by
  induction n with
  | zero => simp
  | succ k ih => simp [List.replicate_succ, List.dropWhile_cons, hp, ih]

lemma rstripHash_no_hash (s : String) (h : s.data.getLast? ≠ some '#') :
    rstripHash s = s := by
  unfold rstripHash
  have hd : List.dropWhile (fun c => c = '#') s.data.reverse = s.data.reverse := by
    cases hrev : s.data.reverse with
    | nil => rfl
    | cons a as =>
      have ha : a ≠ '#' := by
        intro hac
        apply h
        rw [← List.head?_reverse, hrev, hac]
        rfl
      rw [List.dropWhile_cons, if_neg (by simp [ha])]
  apply String.ext
  rw [hd, List.reverse_reverse]

lemma rstripHash_append_hashes (s : String) (n : Nat) :
    rstripHash (s ++ String.mk (List.replicate n '#')) = rstripHash s := by
  unfold rstripHash
  congr 1
  rw [String.data_append,
    show (String.mk (List.replicate n '#')).data = List.replicate n '#' from rfl,
    List.reverse_append, List.reverse_replicate,
    dropWhile_replicate_append (fun c => c = '#') '#' (by decide) n]

/-- C9: the header line registers the wrapper under the function's native
name with all trailing `#` marks stripped: the first emitted line embeds
`rstripHash name.native`, `rstripHash` leaves a name not ending in `#`
unchanged, and stripping removes every trailing run of `#` marks. -/
theorem header_uses_rstripped_name (gdef gsuf module_name : String)
    (f : FuncDecl) (c : Option ClassDecl) :
    (generate_lambda gdef gsuf module_name f c).head? =
      some (module_name ++ "." ++ gdef ++ "(\"" ++ rstripHash f.name.native
        ++ "\", [](" ++ generate_lambda_params_with_types f c ++ ") \x7b")
    ∧ (∀ s : String, s.data.getLast? ≠ some '#' → rstripHash s = s)
    ∧ (∀ (s : String) (n : Nat),
        rstripHash (s ++ String.mk (List.replicate n '#')) = rstripHash s) :=
  ⟨rfl, rstripHash_no_hash, rstripHash_append_hashes⟩

/-- C9 witness: `header_uses_rstripped_name` instantiated — `"get"` (no
trailing marks) is left unchanged, and `"get##"` strips to `"get"`. -/
theorem header_uses_rstripped_name_witness :
    rstripHash "get" = "get"
    ∧ rstripHash ("get" ++ String.mk (List.replicate 2 '#')) = rstripHash "get" :=
  ⟨(header_uses_rstripped_name "d" "s" "m" {} none).2.1 "get" (by decide),
   (header_uses_rstripped_name "d" "s" "m" {} none).2.2 "get" 2⟩

/- ### needs_lambda -/

lemma fnic_iff (usable : String → Bool) (f : FuncDecl) (ic : Bool)
    (h : func_needs_implicit_conversion usable f = some ic) :
    ic = true ↔
      ∃ p, f.params = [p] ∧ usable p.cpp_exact_type = true
        ∧ extract_bare_type p.cpp_exact_type ≠ extract_bare_type p.type.cpp_type
        ∧ p.type.cpp_toptr_conversion = true
        ∧ p.type.cpp_touniqptr_conversion = true := by
  unfold func_needs_implicit_conversion at h
  cases hp : f.params with
  | nil =>
    rw [hp] at h
    simp only [Option.some.injEq] at h
    simp [hp, ← h]
  | cons p ps =>
    cases hps : ps with
    | cons q qs =>
      rw [hp, hps] at h
      simp only [Option.some.injEq] at h
      simp [hp, hps, ← h]
    | nil =>
      rw [hps] at hp
      rw [hp] at h
      dsimp only at h
      by_cases hu : usable p.cpp_exact_type = true
      · rw [if_pos hu] at h
        cases he : extract_bare_type p.cpp_exact_type with
        | none =>
          rw [he] at h
          cases hd : extract_bare_type p.type.cpp_type <;> rw [hd] at h <;>
            exact absurd h (by simp)
        | some be =>
          rw [he] at h
          cases hd : extract_bare_type p.type.cpp_type with
          | none => rw [hd] at h; exact absurd h (by simp)
          | some bd =>
            rw [hd] at h
            simp only [Option.some.injEq] at h
            rw [← h]
            simp [hp, hu, he, hd, Bool.and_eq_true, decide_eq_true_eq,
              and_assoc]
      · rw [if_neg hu] at h
        simp only [Option.some.injEq] at h
        simp [hp, hu, ← h]

lemma fhpp_iff (f : FuncDecl) :
    func_has_pointer_params f = true ↔
      2 ≤ f.returns.length ∨ (f.returns.length = 1 ∧ f.cpp_void_return = true) := by
  unfold func_has_pointer_params
  simp [Bool.or_eq_true, Bool.and_eq_true, decide_eq_true_eq, ge_iff_le]

lemma fbytes_iff (f : FuncDecl) :
    has_bytes_return f = true ↔ ∃ r ∈ f.returns, r.type.lang_type = "bytes" := by
  unfold has_bytes_return
  simp [List.any_eq_true, decide_eq_true_eq]

/-- C1: whenever `needs_lambda` terminates normally (its embedded value is
`some _`), it returns `true` exactly when at least one of the four
wrapper-forcing conditions of the spec holds: `->self` postprocessing, the
single-parameter implicit-conversion mismatch with both conversion flags
(never triggered by multi-parameter descriptors), pointer out-parameter
marshaling (two or more returns, or one return with a void call), or a
byte-tagged return. -/
theorem needs_lambda_iff_spec (usable : String → Bool) (f : FuncDecl)
    (h : (needs_lambda usable f).isSome = true) :
    needs_lambda usable f = some true ↔ needsWrapperSpec usable f := by
  unfold needsWrapperSpec
  unfold needs_lambda at h ⊢
  by_cases hp : f.postproc = "->self"
  · rw [if_pos hp]
    simp [hp]
  · rw [if_neg hp] at h ⊢
    cases hic : func_needs_implicit_conversion usable f with
    | none => rw [hic] at h; simp at h
    | some ic =>
      dsimp only at h ⊢
      simp only [Option.some.injEq, Bool.or_eq_true]
      rw [fnic_iff usable f ic hic, fhpp_iff, fbytes_iff]
      rw [or_assoc]
      exact (or_iff_right hp).symm

/-- C1 witness: `needs_lambda_iff_spec` at a descriptor whose sole return
is byte-tagged — `needs_lambda` returns `some true` via condition (4). -/
theorem needs_lambda_iff_spec_witness :
    needs_lambda (fun _ => true)
        { returns := [{ type := { lang_type := "bytes" } }] } = some true := by
  apply (needs_lambda_iff_spec (fun _ => true)
    { returns := [{ type := { lang_type := "bytes" } }] } (by decide)).mpr
  exact Or.inr (Or.inr (Or.inr ⟨{ type := { lang_type := "bytes" } }, by simp, rfl⟩))

end ClifLambdas
